import Mathlib

/-!
# Verification of the AI-assisted grader pipeline (`grader_0.py`)

A shallow embedding of the grading pipeline in `grader_0.py`:

* `extract_requirements` — the PDF-page accumulation loop (lines 17–29),
  over the list of per-page extracted texts;
* `parse_llm_response` — the regex-based reply parser (lines 31–47),
  including a faithful model of the two `re.search` patterns, of Python's
  `float()` on the strings the score pattern can produce, of `str.strip()`,
  and of the `except` branch;
* `analyze_submission` — the inference-client fallback (lines 49–84), with
  the external model call abstracted as an oracle outcome;
* `processFiles` / `process_submissions` — the per-file and per-archive
  loops (lines 86–131), with filesystem/zip outcomes abstracted as data;
* `submissionEvents` / `dirExists` — an event-trace view of one submission
  used to state the cleanup invariant (line 131's `shutil.rmtree`).

Machine floats are modelled as `Rat`: every numeric literal involved
(0.0, 5.0, 10.0 and the decimal strings in the claims) is exactly
representable, and only order/clamping facts are at stake.

Strings are modelled as `List Char` at the core; `String` wrappers are used
at the API boundary.
-/

/-- The character class `[0-9.]` of the score regex `Score\|([0-9.]+)\|?`. -/
def isScoreChar (c : Char) : Bool :=
  c.isDigit || c == '.'

/-- Greedy `[0-9.]+`: the maximal leading run of score characters. -/
def scoreRun : List Char → List Char
  | [] => []
  | c :: rest => if isScoreChar c then c :: scoreRun rest else []

/-- Whether the list starts with a `[0-9.]` character (the `+` needs at
least one). -/
def scoreCharHead : List Char → Bool
  | [] => false
  | c :: _ => isScoreChar c

/-- Model of `re.search(r"Score\|([0-9.]+)\|?", text)`, returning group 1.

`re.search` tries successive start positions left to right; at a position
the pattern matches exactly when the literal `Score|` is present and is
followed by at least one `[0-9.]` character.  The greedy `+` takes the
maximal run (the trailing `\|?` is optional, so no backtracking can shrink
group 1). -/
def scoreSearch : List Char → Option (List Char)
  | [] => none
  | c :: rest =>
      if (c :: rest).take 6 = ['S', 'c', 'o', 'r', 'e', '|']
          ∧ scoreCharHead ((c :: rest).drop 6) = true then
        some (scoreRun ((c :: rest).drop 6))
      else scoreSearch rest

/-- The lazy tail `(.*?)(\||$)` of the feedback regex, applied right after
a literal `Feedback|`: returns the shortest group of non-newline characters
ending at a `'|'`, at the end of the input, or just before a final
newline (Python's `$` without `re.MULTILINE`); `none` when a newline blocks
the match (`.` does not match `'\n'`). -/
def feedbackTail : List Char → Option (List Char)
  | [] => some []
  | c :: rest =>
      if c = '|' then some []
      else if c = '\n' then (if rest = [] then some [] else none)
      else (feedbackTail rest).map (fun g => c :: g)

/-- Model of `re.search(r"Feedback\|(.*?)(\||$)", text)`, returning
group 1: the first position carrying the literal `Feedback|` at which the
lazy tail succeeds. -/
def feedbackSearch : List Char → Option (List Char)
  | [] => none
  | c :: rest =>
      if (c :: rest).take 9 = ['F', 'e', 'e', 'd', 'b', 'a', 'c', 'k', '|'] then
        match feedbackTail ((c :: rest).drop 9) with
        | some g => some g
        | none => feedbackSearch rest
      else feedbackSearch rest

/-- The characters removed by Python's argumentless `str.strip()`: exactly
those with `str.isspace()` true, i.e. the code points U+0009–U+000D,
U+001C–U+0020, U+0085, U+00A0, U+1680, U+2000–U+200A, U+2028, U+2029,
U+202F, U+205F and U+3000 (enumerated from CPython). -/
def isPySpace (c : Char) : Bool :=
  let n := c.toNat
  (0x09 ≤ n && n ≤ 0x0D) || (0x1C ≤ n && n ≤ 0x20)
    || n == 0x85 || n == 0xA0 || n == 0x1680
    || (0x2000 ≤ n && n ≤ 0x200A) || n == 0x2028 || n == 0x2029
    || n == 0x202F || n == 0x205F || n == 0x3000

/-- Model of Python's `str.strip()`. -/
def pyStrip (l : List Char) : List Char :=
  ((l.dropWhile isPySpace).reverse.dropWhile isPySpace).reverse

/-- Value of a decimal digit string (leading zeros allowed, as for
`float("07")`). -/
def digitsVal (l : List Char) : Nat :=
  l.foldl (fun n c => 10 * n + (c.toNat - 48)) 0

/-- Python's `float()` restricted to the strings the score regex can
produce: nonempty runs over `[0-9.]`.  Such a string is a valid float
literal exactly when it has at most one dot and at least one digit
(`"1.2.3"`, `"."`, `".."` raise `ValueError`, modelled as `none`).  The
value is exact as a rational (the decimal literal `ip.fp` denotes
`(ip·10^|fp| + fp) / 10^|fp|`); Python's binary rounding never moves a
value across the `[0, 10]` clamp boundaries for the decimals at stake. -/
def pyFloat (l : List Char) : Option Rat :=
  if l.count '.' = 0 then
    if l ≠ [] ∧ l.all Char.isDigit then some (mkRat (digitsVal l) 1) else none
  else if l.count '.' = 1 then
    let ip := l.takeWhile (fun c => c ≠ '.')
    let fp := (l.dropWhile (fun c => c ≠ '.')).drop 1
    if (ip ≠ [] ∨ fp ≠ []) ∧ ip.all Char.isDigit ∧ fp.all Char.isDigit then
      some (mkRat (digitsVal ip * 10 ^ fp.length + digitsVal fp) (10 ^ fp.length))
    else none
  else none

/-- Python's two-argument `min` on numbers (kernel-computable on `Rat`,
unlike the lattice `⊓`). -/
def pyMin (a b : Rat) : Rat := if a ≤ b then a else b

/-- Python's two-argument `max` on numbers. -/
def pyMax (a b : Rat) : Rat := if a ≤ b then b else a

/-- `parse_llm_response` (lines 31–47).

Both `re.search` calls run first (they cannot raise); if the score group is
present, `float()` on it may raise `ValueError`, in which case the
`except` branch returns `(5.0, "Could not parse analysis results")`.
Otherwise the score defaults to `5.0` when absent, the feedback group is
stripped or defaults to `"No feedback parsed"`, and the score is clamped
by `max(0.0, min(10.0, score))`. -/
def parse_llm_response (text : String) : Rat × String :=
  let score_match := scoreSearch text.data
  let feedback_match := feedbackSearch text.data
  match score_match with
  | none =>
      let score : Rat := 5
      let feedback : String :=
        match feedback_match with
        | some f => String.mk (pyStrip f)
        | none => "No feedback parsed"
      (pyMax 0 (pyMin 10 score), feedback)
  | some s =>
      match pyFloat s with
      | none => (5, "Could not parse analysis results")
      | some v =>
          let feedback : String :=
            match feedback_match with
            | some f => String.mk (pyStrip f)
            | none => "No feedback parsed"
          (pyMax 0 (pyMin 10 v), feedback)

/-- Whether the reply makes the parser's `try` body raise: the score group
is present but `float()` on it fails (the only statement in the body that
can raise). -/
def raisesDuringParse (text : String) : Bool :=
  match scoreSearch text.data with
  | some s => (pyFloat s).isNone
  | none => false

/-- The exact two-line reply template the prompt demands (lines 60–62):
`Score|<num>|` newline `Feedback|<fb>|`. -/
def mkReply (num fb : List Char) : List Char :=
  ['S', 'c', 'o', 'r', 'e', '|'] ++ num ++ ['|', '\n']
    ++ ['F', 'e', 'e', 'd', 'b', 'a', 'c', 'k', '|'] ++ fb ++ ['|']

/-! ## Requirement loader (`extract_requirements`, lines 17–29)

`pages` is the list of per-page `page.get_text()` results, in document
order; the PDF/fitz mechanics are out of scope (spec §1).  The
`FileNotFoundError` exit path (lines 27–29) terminates the process and is
not part of the accumulation behavior under study. -/

/-- `"\n".join(...)` on a list of strings. -/
def joinNL : List (List Char) → List Char
  | [] => []
  | [x] => x
  | x :: xs => x ++ '\n' :: joinNL xs

/-- One iteration of the page loop (lines 22–25): append the page's text
exactly when `len("\n".join(full_text)) + len(page_text) < 2500`. -/
def reqStep (full_text : List (List Char)) (page_text : List Char) : List (List Char) :=
  if (joinNL full_text).length + page_text.length < 2500 then full_text ++ [page_text]
  else full_text

/-- `extract_requirements` (lines 17–26): fold the page loop and join with
newlines. -/
def extract_requirements (pages : List (List Char)) : List Char :=
  joinNL (pages.foldl reqStep [])

/-- Modelled from the spec (claim C1's wording, not the code): append a
page *only while the current accumulated length is under the budget*, so
that "a page that would cross the boundary is still fully appended". -/
def reqStepClaimed (full_text : List (List Char)) (page_text : List Char) : List (List Char) :=
  if (joinNL full_text).length < 2500 then full_text ++ [page_text]
  else full_text

/-- Modelled from the spec: the requirement loader as claim C1 describes
it, to be compared with `extract_requirements`. -/
def extract_requirements_claimed (pages : List (List Char)) : List Char :=
  joinNL (pages.foldl reqStepClaimed [])

/-! ## Submission processing (`analyze_submission`, `process_submissions`,
lines 49–131)

The external pieces are abstracted as data:
* the Ollama call either returns a raw reply or raises (`InferResult`);
* reading one enumerated file either yields a reply-producing analysis or
  raises inside the per-file `try` (`FileOutcome`);
* opening/extracting one archive either yields its analyzable files or
  raises (`ExtractOutcome`) — in the code this `with zipfile.ZipFile`/
  `extractall` step is *not* inside any `try`. -/

/-- Outcome of the `ollama.generate` call for one file: the raw response
text, or any exception (connection failure, timeout, missing key, …). -/
inductive InferResult
  | ok (resp : String)
  | err
deriving DecidableEq

/-- `analyze_submission` (lines 49–84), given the oracle outcome of the
inference call: on success the reply is parsed, on any exception the
`except` branch (lines 82–84) returns `(0.0, "Analysis failed")`.  The
prompt formatting (lines 51–63) does not affect this result. -/
def analyze_submission (r : InferResult) : Rat × String :=
  match r with
  | .ok resp => parse_llm_response resp
  | .err => (0, "Analysis failed")

/-- Outcome of processing one enumerated file inside the per-file `try`
(lines 104–129): either the body runs with some inference outcome, or an
exception (e.g. from `file.read_text`) is caught by the inner `except`
and the file contributes nothing. -/
inductive FileOutcome
  | readError
  | analyzed (r : InferResult)
deriving DecidableEq

/-- One CSV row (line 119–125).  Scores and totals are kept as exact
numbers; the CSV renders them as `f"{x:.1f}/10"` / `f"{x:.1f}/40"`,
which is injective on the values at stake and out of scope here. -/
structure Row where
  asurite : String
  file : String
  score : Rat
  feedback : String
  total : Rat
deriving DecidableEq

/-- The per-file loop of one submission (lines 102–129): `readError` files
are skipped (exception caught and logged), analyzed files append one row
and add their score to the running total (`total_score += score` happens
before the row is written, so the row shows the updated total). -/
def processFiles (asurite : String) : List (String × FileOutcome) → Rat → List Row
  | [], _ => []
  | (_, .readError) :: rest, total => processFiles asurite rest total
  | (path, .analyzed r) :: rest, total =>
      let res := analyze_submission r
      { asurite := asurite, file := path, score := res.1, feedback := res.2,
        total := total + res.1 } :: processFiles asurite rest (total + res.1)

/-- `Path.stem`: the filename with its final `.`-suffix removed (a lone
leading dot is not a suffix). -/
def pathStem (name : List Char) : List Char :=
  match name.reverse.dropWhile (fun c => c ≠ '.') with
  | [] => name
  | _ :: rest => if rest = [] then name else rest.reverse

/-- `str.split("-")[0]`: the text before the first `'-'`, or the whole
string when there is none. -/
def splitDash : List Char → List Char
  | [] => []
  | c :: rest => if c = '-' then [] else c :: splitDash rest

/-- Line 94: `asurite_id = zip_path.stem.split("-")[0]`. -/
def asurite_id (zipName : String) : String :=
  String.mk (splitDash (pathStem zipName.data))

/-- Outcome of `zipfile.ZipFile(zip_path)` + `extractall` for one archive
(lines 98–100): the list of enumerated eligible files, or an exception
(e.g. `BadZipFile`) — which no `try` in `process_submissions` catches. -/
inductive ExtractOutcome
  | ok (files : List (String × FileOutcome))
  | raise (msg : String)
deriving DecidableEq

/-- The archive loop of `process_submissions` (lines 93–131): the result
is the list of CSV rows written (each row is flushed as written) and, when
an archive-level exception escapes, the uncaught error that aborted the
loop (`none` = ran to completion).  An `ExtractOutcome.raise` propagates:
no row of that archive is written and no later archive is visited. -/
def process_submissions : List (String × ExtractOutcome) → List Row × Option String
  | [] => ([], none)
  | (_, .raise msg) :: _ => ([], some msg)
  | (name, .ok files) :: rest =>
      let rows := processFiles (asurite_id name) files 0
      let r := process_submissions rest
      (rows ++ r.1, r.2)

/-- Modelled from the spec (claim C2's wording, not the code): an error in
extracting an archive is logged and iteration continues best-effort over
the remaining archives. -/
def process_submissions_claimed : List (String × ExtractOutcome) → List Row × Option String
  | [] => ([], none)
  | (_, .raise _) :: rest => process_submissions_claimed rest
  | (name, .ok files) :: rest =>
      let rows := processFiles (asurite_id name) files 0
      let r := process_submissions_claimed rest
      (rows ++ r.1, r.2)

/-! ## Cleanup trace (claim C6)

An event-level view of one submission whose extraction succeeded
(lines 98–131): extract into `temp/<asurite_id>`, process every file with
the per-file `try` catching all exceptions, then unconditionally
`shutil.rmtree(extract_dir, ignore_errors=True)`.  The removal itself is a
standard library call, modelled as effective (spec §1 treats library-call
internals as out of scope). -/

/-- Line 99: `extract_dir = Path(f"temp/{asurite_id}")`. -/
def extract_dir (asurite : String) : String := "temp/" ++ asurite

/-- One filesystem/report event of the per-submission lifecycle. -/
inductive Event
  | extracted (dir : String)
  | wroteRow (r : Row)
  | removedDir (dir : String)
deriving DecidableEq

/-- The event trace of one successfully-extracted submission: extraction,
one row per analyzed file (whatever mix of per-file outcomes occurred),
then the unconditional `rmtree` of line 131. -/
def submissionEvents (name : String) (files : List (String × FileOutcome)) : List Event :=
  let id := asurite_id name
  Event.extracted (extract_dir id) ::
    ((processFiles id files 0).map Event.wroteRow ++ [Event.removedDir (extract_dir id)])

/-- Whether directory `d` exists after replaying an event trace (starting
from a world where it does not exist). -/
def dirExists (events : List Event) (d : String) : Bool :=
  events.foldl
    (fun b e =>
      match e with
      | Event.extracted d2 => if d2 = d then true else b
      | Event.removedDir d2 => if d2 = d then false else b
      | Event.wroteRow _ => b)
    false

-- sanity checks, kernel-evaluated (cross-checked against CPython's `re`,
-- `float`, `str.strip`, `str.split` and `pathlib.Path.stem` behavior)
example : parse_llm_response "Score|7.5|\nFeedback|good work|" = (mkRat 15 2, "good work") := by decide
example : parse_llm_response "Score|15.0|" = (10, "No feedback parsed") := by decide
example : parse_llm_response "Score|-2.5|" = (5, "No feedback parsed") := by decide
example : parse_llm_response "Score|..|" = (5, "Could not parse analysis results") := by decide
example : parse_llm_response "hello" = (5, "No feedback parsed") := by decide
example : parse_llm_response "Feedback| spaced |" = (5, "spaced") := by decide
example : parse_llm_response "Feedback|a\nmore" = (5, "No feedback parsed") := by decide
example : parse_llm_response "Feedback|hi\n" = (5, "hi") := by decide
example : parse_llm_response "xScore|abcScore|3|" = (mkRat 3 1, "No feedback parsed") := by decide
example : parse_llm_response "Feedback|x\nFeedback|y|" = (5, "y") := by decide
example : parse_llm_response "Score|.5|" = (mkRat 1 2, "No feedback parsed") := by decide
example : parse_llm_response "aFeedback|q" = (5, "q") := by decide
example : parse_llm_response "Feedback||" = (5, "") := by decide
example : parse_llm_response "Feedback| ok |" = (5, "ok") := by decide
example : parse_llm_response "Score|7|\nFeedback|　ok|" = (mkRat 7 1, "ok") := by decide
example : asurite_id "abc-1.zip" = "abc" := by decide
example : asurite_id "nodash.zip" = "nodash" := by decide
example : asurite_id "abc123-final.zip" = "abc123" := by decide
example : analyze_submission InferResult.err = (0, "Analysis failed") := by decide

/-! ## Helper lemmas -/

theorem pyMax_zero_nonneg (x : Rat) : 0 ≤ pyMax 0 x := by
  unfold pyMax
  split
  · assumption
  · exact le_refl 0

theorem pyMin_le_ten (x : Rat) : pyMin 10 x ≤ 10 := by
  unfold pyMin
  split
  · exact le_refl 10
  · exact le_of_not_le (by assumption)

theorem pyMax_zero_le_ten (x : Rat) (h : x ≤ 10) : pyMax 0 x ≤ 10 := by
  unfold pyMax
  split
  · exact h
  · norm_num

theorem pyMin_eq_of_le (x : Rat) (h : x ≤ 10) : pyMin 10 x = x := by
  unfold pyMin
  split
  · exact le_antisymm (by assumption) h
  · rfl

theorem pyMax_eq_of_le (x : Rat) (h : 0 ≤ x) : pyMax 0 x = x := by
  unfold pyMax
  split
  · rfl
  · exact absurd h (by assumption)

/-- The clamped score of any reply lies in `[0, 10]`. -/
theorem parse_score_mem (t : String) :
    0 ≤ (parse_llm_response t).1 ∧ (parse_llm_response t).1 ≤ 10 := by
  simp only [parse_llm_response]
  cases hs : scoreSearch t.data with
  | none =>
      exact ⟨pyMax_zero_nonneg _, pyMax_zero_le_ten _ (pyMin_le_ten _)⟩
  | some s =>
      cases hf : pyFloat s with
      | none =>
          simp only [hf]
          exact ⟨by norm_num, by norm_num⟩
      | some v =>
          simp only [hf]
          exact ⟨pyMax_zero_nonneg _, pyMax_zero_le_ten _ (pyMin_le_ten _)⟩

theorem analyze_score_nonneg (r : InferResult) : 0 ≤ (analyze_submission r).1 := by
  cases r with
  | ok resp => exact (parse_score_mem resp).1
  | err => exact le_refl 0

theorem scoreSearch_cons_of_ne (c : Char) (l : List Char) (h : c ≠ 'S') :
    scoreSearch (c :: l) = scoreSearch l := by
  rw [scoreSearch, if_neg]
  rintro ⟨h1, -⟩
  rw [List.take_succ_cons] at h1
  exact h (List.cons.injEq .. ▸ h1).1

theorem scoreSearch_eq_none (l : List Char) (h : ∀ c ∈ l, c ≠ 'S') :
    scoreSearch l = none := by
  induction l with
  | nil => rfl
  | cons c rest ih =>
      rw [scoreSearch_cons_of_ne c rest (h c (List.mem_cons_self c rest))]
      exact ih fun d hd => h d (List.mem_cons_of_mem c hd)

theorem feedbackSearch_cons_of_ne (c : Char) (l : List Char) (h : c ≠ 'F') :
    feedbackSearch (c :: l) = feedbackSearch l := by
  rw [feedbackSearch, if_neg]
  intro h1
  rw [List.take_succ_cons] at h1
  exact h (List.cons.injEq .. ▸ h1).1

theorem feedbackSearch_append (l₁ l₂ : List Char) (h : ∀ c ∈ l₁, c ≠ 'F') :
    feedbackSearch (l₁ ++ l₂) = feedbackSearch l₂ := by
  induction l₁ with
  | nil => rfl
  | cons c rest ih =>
      rw [List.cons_append,
        feedbackSearch_cons_of_ne c (rest ++ l₂) (h c (List.mem_cons_self c rest))]
      exact ih fun d hd => h d (List.mem_cons_of_mem c hd)

theorem scoreRun_append (num : List Char) (d : Char) (rest : List Char)
    (h : ∀ c ∈ num, isScoreChar c = true) (hd : isScoreChar d = false) :
    scoreRun (num ++ d :: rest) = num := by
  induction num with
  | nil => simp [scoreRun, hd]
  | cons c num' ih =>
      rw [List.cons_append, scoreRun, if_pos (h c (List.mem_cons_self c num'))]
      rw [ih fun e he => h e (List.mem_cons_of_mem c he)]

theorem scoreSearch_exact (l : List Char) (h : scoreCharHead l = true) :
    scoreSearch (['S', 'c', 'o', 'r', 'e', '|'] ++ l) = some (scoreRun l) := by
  rw [show (['S', 'c', 'o', 'r', 'e', '|'] ++ l)
      = 'S' :: ('c' :: 'o' :: 'r' :: 'e' :: '|' :: l) from rfl]
  rw [scoreSearch, if_pos]
  · simp [List.take_succ_cons, List.drop_succ_cons]
  · exact ⟨by simp [List.take_succ_cons], by simpa [List.drop_succ_cons] using h⟩

theorem feedbackTail_closed (fb : List Char) (rest : List Char)
    (h : ∀ c ∈ fb, c ≠ '|' ∧ c ≠ '\n') :
    feedbackTail (fb ++ '|' :: rest) = some fb := by
  induction fb with
  | nil => simp [feedbackTail]
  | cons c fb' ih =>
      have hc := h c (List.mem_cons_self c fb')
      rw [List.cons_append, feedbackTail, if_neg hc.1, if_neg hc.2,
        ih fun d hd => h d (List.mem_cons_of_mem c hd)]
      rfl

theorem feedbackSearch_exact (l : List Char) (g : List Char)
    (h : feedbackTail l = some g) :
    feedbackSearch (['F', 'e', 'e', 'd', 'b', 'a', 'c', 'k', '|'] ++ l) = some g := by
  rw [show (['F', 'e', 'e', 'd', 'b', 'a', 'c', 'k', '|'] ++ l)
      = 'F' :: ('e' :: 'e' :: 'd' :: 'b' :: 'a' :: 'c' :: 'k' :: '|' :: l) from rfl]
  rw [feedbackSearch, if_pos]
  · simp only [List.drop_succ_cons, List.drop_zero, h]
  · simp [List.take_succ_cons]

theorem ne_SF_of_isScoreChar (c : Char) (h : isScoreChar c = true) :
    c ≠ 'S' ∧ c ≠ 'F' := by
  constructor <;> rintro rfl <;> exact absurd h (by decide)

theorem ne_SF_of_isDigit (c : Char) (h : c.isDigit = true) :
    c ≠ 'S' ∧ c ≠ 'F' := by
  constructor <;> rintro rfl <;> exact absurd h (by decide)

theorem joinNL_cons (a : List Char) (l : List (List Char)) (h : l ≠ []) :
    joinNL (a :: l) = a ++ '\n' :: joinNL l := by
  cases l with
  | nil => exact absurd rfl h
  | cons b t => rfl

theorem joinNL_append_singleton (acc : List (List Char)) (p : List Char) (h : acc ≠ []) :
    joinNL (acc ++ [p]) = joinNL acc ++ '\n' :: p := by
  induction acc with
  | nil => exact absurd rfl h
  | cons a acc' ih =>
      cases acc' with
      | nil => rfl
      | cons b t =>
          rw [List.cons_append, joinNL_cons a ((b :: t) ++ [p]) (by simp),
            joinNL_cons a (b :: t) (by simp), ih (by simp)]
          simp

theorem reqStep_budget (acc : List (List Char)) (p : List Char)
    (h : (joinNL acc).length ≤ 2500) :
    (joinNL (reqStep acc p)).length ≤ 2500 := by
  unfold reqStep
  split
  · rename_i hc
    cases acc with
    | nil =>
        simpa [joinNL] using Nat.le_of_lt (by simpa [joinNL] using hc)
    | cons a t =>
        rw [joinNL_append_singleton (a :: t) p (by simp)]
        simp only [List.length_append, List.length_cons]
        omega
  · exact h

theorem foldl_reqStep_budget (pages : List (List Char)) :
    ∀ acc, (joinNL acc).length ≤ 2500 →
      (joinNL (pages.foldl reqStep acc)).length ≤ 2500 := by
  induction pages with
  | nil => exact fun acc h => h
  | cons p pages' ih =>
      intro acc h
      rw [List.foldl_cons]
      exact ih (reqStep acc p) (reqStep_budget acc p h)

theorem processFiles_chain (asurite : String) (files : List (String × FileOutcome)) :
    ∀ t : Rat, List.Chain' (· ≤ ·) (t :: (processFiles asurite files t).map Row.total) := by
  induction files with
  | nil => exact fun t => List.chain'_singleton t
  | cons f rest ih =>
      intro t
      obtain ⟨path, outcome⟩ := f
      cases outcome with
      | readError => exact ih t
      | analyzed r =>
          rw [processFiles]
          simp only [List.map_cons]
          exact List.chain'_cons.2
            ⟨le_add_of_nonneg_right (analyze_score_nonneg r), ih _⟩

/-! ## Claims -/

/-- C2 (counterexample to the claim as stated): an archive whose
extraction raises is not logged-and-skipped; it aborts the batch, so the
fine second archive is never processed — unlike the best-effort behavior
the claim describes (`process_submissions_claimed`). -/
theorem C2_counterexample :
    process_submissions
        [("bad.zip", ExtractOutcome.raise "BadZipFile"),
         ("abc-1.zip", ExtractOutcome.ok [("main.py", FileOutcome.analyzed InferResult.err)])]
      = ([], some "BadZipFile") ∧
    process_submissions_claimed
        [("bad.zip", ExtractOutcome.raise "BadZipFile"),
         ("abc-1.zip", ExtractOutcome.ok [("main.py", FileOutcome.analyzed InferResult.err)])]
      = ([{ asurite := "abc", file := "main.py", score := 0,
            feedback := "Analysis failed", total := 0 }], none) := by
  constructor
  · rfl
  · simp only [process_submissions_claimed, processFiles, analyze_submission]
    norm_num
    decide

/-- C2 amended: an error raised while opening/extracting an archive is not
caught anywhere in `process_submissions`: it propagates immediately, no
row is written for that archive, and no later archive is visited. -/
theorem C2_extract_error_aborts (name msg : String)
    (rest : List (String × ExtractOutcome)) :
    process_submissions ((name, ExtractOutcome.raise msg) :: rest) = ([], some msg) := rfl

/-- C3: for every raw reply the returned score lies in `[0, 10]`; in
particular the out-of-range numeric string `"15.0"` is clamped to `10`,
and `"-2.5"` (whose minus sign the score pattern cannot match, see C10)
yields the in-range default `5`. -/
theorem C3_score_range :
    (∀ t : String, 0 ≤ (parse_llm_response t).1 ∧ (parse_llm_response t).1 ≤ 10) ∧
    (parse_llm_response "Score|15.0|").1 = 10 ∧
    (parse_llm_response "Score|-2.5|").1 = 5 :=
  ⟨parse_score_mem, by decide, by decide⟩

/-- C4: an inference call that fails yields exactly `(0.0, "Analysis
failed")` at the client level, and the per-file loop writes that fallback
row (leaving the running total unchanged) and continues with the remaining
files unaffected. -/
theorem C4_inference_failure_fallback (asurite path : String)
    (rest : List (String × FileOutcome)) (total : Rat) :
    analyze_submission InferResult.err = (0, "Analysis failed") ∧
    processFiles asurite ((path, FileOutcome.analyzed InferResult.err) :: rest) total
      = { asurite := asurite, file := path, score := 0,
          feedback := "Analysis failed", total := total }
          :: processFiles asurite rest total := by
  refine ⟨rfl, ?_⟩
  simp [processFiles, analyze_submission]

/-- C6: after one submission's per-file processing — whatever mix of
per-file outcomes occurred, every per-file exception being caught by the
inner `try` — the trace ends with the unconditional `rmtree`, so the
extraction directory no longer exists. -/
theorem C6_cleanup (name : String) (files : List (String × FileOutcome)) :
    dirExists (submissionEvents name files) (extract_dir (asurite_id name)) = false := by
  simp [submissionEvents, dirExists, List.foldl_append]

/-- C8: the submission identifier is the stem's text before the first
`'-'`, the whole stem when there is none; `abc123-final.zip ↦ abc123` and
`nodash.zip ↦ nodash`. -/
theorem C8_asurite_from_stem :
    (∀ pre post : List Char, '-' ∉ pre → splitDash (pre ++ '-' :: post) = pre) ∧
    (∀ s : List Char, '-' ∉ s → splitDash s = s) ∧
    asurite_id "abc123-final.zip" = "abc123" ∧
    asurite_id "nodash.zip" = "nodash" := by
  refine ⟨?_, ?_, by decide, by decide⟩
  · intro pre post h
    induction pre with
    | nil => simp [splitDash]
    | cons c pre' ih =>
        rw [List.cons_append, splitDash,
          if_neg (by rintro rfl; exact h (List.mem_cons_self _ pre')),
          ih (fun hm => h (List.mem_cons_of_mem c hm))]
  · intro s h
    induction s with
    | nil => rfl
    | cons c s' ih =>
        rw [splitDash, if_neg (by rintro rfl; exact h (List.mem_cons_self _ s')),
          ih (fun hm => h (List.mem_cons_of_mem c hm))]

/-- Witness for C8 at the claim's own examples. -/
theorem C8_witness :
    ('-' ∉ "abc123".data) ∧
    splitDash ("abc123".data ++ '-' :: "final".data) = "abc123".data ∧
    splitDash "nodash".data = "nodash".data :=
  ⟨by decide, C8_asurite_from_stem.1 _ _ (by decide),
   C8_asurite_from_stem.2.1 _ (by decide)⟩

/-- C9: the running total starts from the reset value `0` and the totals
column is monotonically non-decreasing across the submission's rows,
because every added score is non-negative (clamped, or a non-negative
fallback). -/
theorem C9_running_total (asurite : String) (files : List (String × FileOutcome)) :
    List.Chain' (· ≤ ·) ((0 : Rat) :: (processFiles asurite files 0).map Row.total) ∧
    ∀ r : InferResult, 0 ≤ (analyze_submission r).1 :=
  ⟨processFiles_chain asurite files 0, analyze_score_nonneg⟩

/-- C1 (counterexample to the claim as stated): on a single page of 2500
characters, the code's loader (whose guard counts the incoming page:
`len(join) + len(page) < 2500`) skips the page and returns the empty
string, while the loader described by the claim (guard on the accumulated
length only, crossing page still fully appended) would return the whole
page. -/
theorem C1_counterexample :
    extract_requirements [List.replicate 2500 'a']
      ≠ extract_requirements_claimed [List.replicate 2500 'a'] := by
  have hbig : (List.replicate 2500 'a').length = 2500 := by
    simp only [List.length_replicate]
  have h1 : extract_requirements [List.replicate 2500 'a'] = [] := by
    unfold extract_requirements
    rw [List.foldl_cons, List.foldl_nil]
    rw [show reqStep [] (List.replicate 2500 'a') = [] by
      unfold reqStep
      rw [if_neg]
      rw [show joinNL [] = [] from rfl, List.length_nil, hbig]
      omega]
    rfl
  have h2 : extract_requirements_claimed [List.replicate 2500 'a']
      = List.replicate 2500 'a' := by
    unfold extract_requirements_claimed
    rw [List.foldl_cons, List.foldl_nil]
    rw [show reqStepClaimed [] (List.replicate 2500 'a') = [List.replicate 2500 'a'] by
      unfold reqStepClaimed
      rw [if_pos]
      · rfl
      · rw [show joinNL [] = [] from rfl, List.length_nil]
        omega]
    rfl
  intro h
  rw [h1, h2] at h
  have hlen := congrArg List.length h
  rw [List.length_nil, hbig] at hlen
  omega

/-- C1 amended: the loader appends a page exactly when the accumulated
length *plus the page's length* is under 2500, so (a) the joined result
never exceeds 2500 characters, and (b) a page that would cross the
boundary is skipped entirely — in particular a first page of ≥ 2500
characters is dropped and the remaining pages are processed as if it were
absent (so accumulation does not necessarily stop at the first oversized
page).  Pages are joined with newlines. -/
theorem C1_page_budget :
    (∀ pages : List (List Char), (extract_requirements pages).length ≤ 2500) ∧
    (∀ p : List Char, ∀ rest : List (List Char),
      2500 ≤ p.length → extract_requirements (p :: rest) = extract_requirements rest) := by
  constructor
  · intro pages
    exact foldl_reqStep_budget pages [] (by simp [joinNL])
  · intro p rest h
    unfold extract_requirements
    rw [List.foldl_cons]
    rw [show reqStep [] p = [] by
      unfold reqStep
      rw [if_neg]
      simp [joinNL]
      omega]

/-- Witness for C1 at a concrete oversized page. -/
theorem C1_witness :
    2500 ≤ (List.replicate 2500 'a').length ∧
    extract_requirements [List.replicate 2500 'a', "ok".data]
      = extract_requirements ["ok".data] :=
  ⟨by simp only [List.length_replicate, le_refl],
   C1_page_budget.2 (List.replicate 2500 'a') ["ok".data]
     (by simp only [List.length_replicate, le_refl])⟩

/-- C5 (counterexample to the claim as stated): the reply `"Score|..|"`
has no feedback field, yet the parser does not return the missing-feedback
placeholder `"No feedback parsed"` — `float("..")` raises first and the
`except` branch returns the *different* fixed string `"Could not parse
analysis results"`, so the exception fallback is not "the same (5.0,
placeholder)" pair. -/
theorem C5_counterexample :
    feedbackSearch "Score|..|".data = none ∧
    parse_llm_response "Score|..|" = (5, "Could not parse analysis results") ∧
    (parse_llm_response "Score|..|").2 ≠ "No feedback parsed" := by
  refine ⟨by decide, by decide, by decide⟩

/-- C5 amended: a reply with no score field parses to score exactly 5.0
(and cannot raise); a reply with no feedback field parses to the fixed
placeholder `"No feedback parsed"` provided `float()` does not raise; and
a reply on which `float()` raises is caught and mapped to `(5.0, "Could
not parse analysis results")` — a fixed pair whose string differs from the
missing-feedback placeholder.  The parser is a total function: no input
propagates an exception. -/
theorem C5_parser_fallbacks :
    (∀ t : String, scoreSearch t.data = none → (parse_llm_response t).1 = 5) ∧
    (∀ t : String, raisesDuringParse t = false → feedbackSearch t.data = none →
      (parse_llm_response t).2 = "No feedback parsed") ∧
    (∀ t : String, raisesDuringParse t = true →
      parse_llm_response t = (5, "Could not parse analysis results")) := by
  refine ⟨?_, ?_, ?_⟩
  · intro t h
    simp only [parse_llm_response, h]
    decide
  · intro t h1 h2
    cases hs : scoreSearch t.data with
    | none => simp only [parse_llm_response, hs, h2]
    | some s =>
        simp only [raisesDuringParse, hs] at h1
        cases hpf : pyFloat s with
        | none => rw [hpf] at h1; simp at h1
        | some v => simp only [parse_llm_response, hs, hpf, h2]
  · intro t h
    cases hs : scoreSearch t.data with
    | none => simp [raisesDuringParse, hs] at h
    | some s =>
        simp only [raisesDuringParse, hs] at h
        cases hpf : pyFloat s with
        | none => simp only [parse_llm_response, hs, hpf]
        | some v => rw [hpf] at h; simp at h

/-- Witness for C5 at concrete replies exercising all three fallbacks. -/
theorem C5_witness :
    (parse_llm_response "hello").1 = 5 ∧
    (parse_llm_response "hello").2 = "No feedback parsed" ∧
    parse_llm_response "Score|1.2.3|" = (5, "Could not parse analysis results") :=
  ⟨C5_parser_fallbacks.1 "hello" (by decide),
   C5_parser_fallbacks.2.1 "hello" (by decide) (by decide),
   C5_parser_fallbacks.2.2 "Score|1.2.3|" (by decide)⟩

/-- C7 (counterexample to the claim as stated): the reply
`Score|7|\nFeedback| ok |` matches the two-line template with feedback
text `" ok "`, but the parser returns the stripped `"ok"`, not the
verbatim substring. -/
theorem C7_counterexample :
    (parse_llm_response (String.mk (mkReply ['7'] [' ', 'o', 'k', ' ']))).2 = "ok" ∧
    ("ok" : String) ≠ String.mk [' ', 'o', 'k', ' '] :=
  ⟨by decide, by decide⟩

/-- C7 amended: for a reply that is exactly the two-line template, the two
regexes extract the score and feedback substrings verbatim, and the parsed
pair is the score's numeric value (unchanged by the clamp when it lies in
`[0, 10]`) with the feedback — provided the feedback text contains no
delimiter `'|'` or newline and carries no leading/trailing whitespace
(otherwise `str.strip()` alters it, see the counterexample). -/
theorem C7_round_trip (num fb : List Char) (v : Rat)
    (hnum : num ≠ []) (hsc : ∀ c ∈ num, isScoreChar c = true)
    (hv : pyFloat num = some v) (hv0 : 0 ≤ v) (hv10 : v ≤ 10)
    (hfb : ∀ c ∈ fb, c ≠ '|' ∧ c ≠ '\n') (hstrip : pyStrip fb = fb) :
    scoreSearch (mkReply num fb) = some num ∧
    feedbackSearch (mkReply num fb) = some fb ∧
    parse_llm_response (String.mk (mkReply num fb)) = (v, String.mk fb) := by
  have hscore : scoreSearch (mkReply num fb) = some num := by
    unfold mkReply
    simp only [List.append_assoc]
    rw [scoreSearch_exact]
    · rw [show (['|', '\n'] ++ (['F', 'e', 'e', 'd', 'b', 'a', 'c', 'k', '|']
            ++ (fb ++ ['|'])))
          = '|' :: ('\n' :: (['F', 'e', 'e', 'd', 'b', 'a', 'c', 'k', '|']
            ++ (fb ++ ['|']))) from rfl]
      rw [scoreRun_append num '|' _ hsc (by decide)]
    · cases num with
      | nil => exact absurd rfl hnum
      | cons c num' =>
          rw [List.cons_append]
          exact hsc c (List.mem_cons_self c num')
  have hfeedback : feedbackSearch (mkReply num fb) = some fb := by
    rw [show mkReply num fb
        = (['S', 'c', 'o', 'r', 'e', '|'] ++ num ++ ['|', '\n'])
          ++ (['F', 'e', 'e', 'd', 'b', 'a', 'c', 'k', '|'] ++ (fb ++ ['|'])) by
      simp [mkReply]]
    rw [feedbackSearch_append]
    · exact feedbackSearch_exact _ fb (feedbackTail_closed fb [] hfb)
    · intro c hc
      simp only [List.mem_append, List.mem_cons, List.not_mem_nil, or_false] at hc
      rcases hc with (hc | hc) | hc
      · rcases hc with rfl | rfl | rfl | rfl | rfl | rfl <;> decide
      · exact (ne_SF_of_isScoreChar c (hsc c hc)).2
      · rcases hc with rfl | rfl <;> decide
  refine ⟨hscore, hfeedback, ?_⟩
  simp only [parse_llm_response]
  simp only [hscore, hfeedback, hv, hstrip,
    pyMin_eq_of_le v hv10, pyMax_eq_of_le v hv0]

/-- Witness for C7: the template reply `Score|7.5|\nFeedback|ok|`
round-trips to `(7.5, "ok")`. -/
theorem C7_witness :
    pyFloat ['7', '.', '5'] = some (mkRat 15 2) ∧
    parse_llm_response (String.mk (mkReply ['7', '.', '5'] ['o', 'k']))
      = (mkRat 15 2, "ok") := by
  refine ⟨by decide, ?_⟩
  have h := (C7_round_trip ['7', '.', '5'] ['o', 'k'] (mkRat 15 2)
    (by decide) (by decide) (by decide) (by decide) (by decide)
    (by decide) (by decide)).2.2
  exact h.trans (by decide)

/-- C10: a reply whose only score field holds a negative number
(`Score|-<digits>|`) yields the missing-score default 5.0: the pattern
`[0-9.]+` cannot match the minus sign, so the score search fails
altogether and the absent-field path is taken (not a clamp to 0.0). -/
theorem C10_negative_score_default (n fb : List Char)
    (hdig : ∀ c ∈ n, c.isDigit = true) (hS : 'S' ∉ fb) :
    scoreSearch (mkReply ('-' :: n) fb) = none ∧
    (parse_llm_response (String.mk (mkReply ('-' :: n) fb))).1 = 5 := by
  have hnone : scoreSearch (mkReply ('-' :: n) fb) = none := by
    unfold mkReply
    simp only [List.cons_append, List.append_assoc, List.nil_append]
    rw [scoreSearch, if_neg]
    · apply scoreSearch_eq_none
      intro c hc
      rintro rfl
      simp only [List.mem_cons, List.mem_append, List.not_mem_nil, or_false] at hc
      simp at hc
      rcases hc with hc | hc
      · exact absurd (hdig 'S' hc) (by decide)
      · exact hS hc
    · rintro ⟨-, h2⟩
      simp only [List.drop_succ_cons, List.drop_zero] at h2
      simp only [scoreCharHead] at h2
      exact absurd h2 (by decide)
  refine ⟨hnone, ?_⟩
  simp only [parse_llm_response]
  simp only [hnone]
  decide

/-- Witness for C10 at the claim's example `Score|-3|`. -/
theorem C10_witness :
    (parse_llm_response (String.mk (mkReply ('-' :: ['3']) ['b', 'a', 'd']))).1 = 5 :=
  (C10_negative_score_default ['3'] ['b', 'a', 'd'] (by decide) (by decide)).2
